import Mathlib

/-!
# Bug-report form (`src/bug-report.js`)

A shallow embedding of the form script and the properties stated about it.

Conventions of the embedding:

* a JavaScript string is a Lean `String`, a sequence of Unicode scalar values (strings
  with an unpaired surrogate are outside the embedding);
* a finite JavaScript number is the rational it denotes (`/ 1024` is exact on binary64
  for every finite value of magnitude at least 1024, so the loop of `bytesToHuman` computes
  the same values over the rationals);
* the DOM nodes the script touches are fields of `State`; an event handler is a function
  `State → State`, with what the platform decides (the clock, the outcome of a file read,
  whether `localStorage.setItem` throws) passed in as arguments.
-/

namespace BugReport

/-! ## Strings -/

/-- ECMAScript `WhiteSpace` and `LineTerminator` code points, the ones
`String.prototype.trim` strips. -/
def isJsWhitespace (c : Char) : Bool :=
  c.toNat = 0x09 || c.toNat = 0x0A || c.toNat = 0x0B || c.toNat = 0x0C || c.toNat = 0x0D ||
  c.toNat = 0x20 || c.toNat = 0xA0 || c.toNat = 0x1680 ||
  (0x2000 ≤ c.toNat && c.toNat ≤ 0x200A) ||
  c.toNat = 0x2028 || c.toNat = 0x2029 || c.toNat = 0x202F || c.toNat = 0x205F ||
  c.toNat = 0x3000 || c.toNat = 0xFEFF

/-- `String.prototype.trim`: white space removed from both ends. -/
def jsTrim (s : String) : String :=
  String.mk ((s.data.dropWhile isJsWhitespace).reverse.dropWhile isJsWhitespace).reverse

/-- `ToBoolean` on a string (`Boolean(s)`, `!s`, `s || ""`): true unless the string is empty. -/
def truthy (s : String) : Bool := s != ""

/-- `String.prototype.startsWith`. -/
def startsWith (s pre : String) : Bool := pre.data.isPrefixOf s.data

/-- `Array.prototype.join` on an array of strings. -/
def join (sep : String) : List String → String
  | [] => ""
  | [x] => x
  | x :: y :: rest => x ++ sep ++ join sep (y :: rest)

/-! ## Numbers and their printing -/

/-- What `bytesToHuman` may be handed: `undefined` (a missing property) or a number, which
is `NaN`, an infinity, or finite. -/
inductive JSValue where
  | undefined
  | nan
  | posInf
  | negInf
  | number (x : ℚ)
  deriving DecidableEq

/-- The decimal digit `d` as a character. -/
def digitChar (d : ℕ) : Char := Char.ofNat (48 + d)

/-- Decimal digits of `n`, most significant first; `fuel` bounds the number of digits. -/
def decimalAux : ℕ → ℕ → List Char
  | 0, _ => []
  | fuel + 1, n =>
    if n < 10 then [digitChar n] else decimalAux fuel (n / 10) ++ [digitChar (n % 10)]

/-- Decimal digits of a natural number (`0` prints as one digit). -/
def decimal (n : ℕ) : List Char := decimalAux (n + 1) n

/-- `Math.round`: the nearest integer, a tie going up. -/
def mathRound (x : ℚ) : ℤ := ⌊x + 1 / 2⌋

/-- `String(v)` for an integral number `v`. Below `10^21` in magnitude this is the decimal
numeral; from there on ECMAScript prints exponent notation of the binary64 value, which
is left to the parameter `sci`. -/
def integerToString (sci : ℚ → String) (v : ℤ) : String :=
  if v.natAbs < 10 ^ 21 then
    (if v < 0 then "-" else "") ++ String.mk (decimal v.natAbs)
  else sci v

/-- The integer `n` that `toFixed(1)` picks for `x ≥ 0`: `n / 10` is nearest to `x`, the
larger `n` on a tie. -/
def toFixedInt (x : ℚ) : ℕ := ⌊x * 10 + 1 / 2⌋.toNat

/-- Last steps of `toFixed(1)`: the digit string `m` of the chosen integer is padded with
zeros to two characters and a point is put before its last character. -/
def fixedString (n : ℕ) : String :=
  let m := decimal n
  let m := if m.length ≤ 1 then List.replicate (2 - m.length) '0' ++ m else m
  String.mk (m.take (m.length - 1)) ++ "." ++ String.mk (m.drop (m.length - 1))

/-- `Number.prototype.toFixed(1)` on a finite number, step by step as in ECMAScript: the
sign is split off, a magnitude of `10^21` or more is printed by `ToString` (the parameter
`sci`), otherwise the integer `toFixedInt` is printed with a point before its last digit. -/
def toFixed1 (sci : ℚ → String) (x : ℚ) : String :=
  let s := if x < 0 then "-" else ""
  let x := if x < 0 then -x else x
  if x ≥ 10 ^ 21 then s ++ sci x
  else s ++ fixedString (toFixedInt x)

/-! ## `bytesToHuman` -/

/-- The unit table of `bytesToHuman`. -/
def units : List String := ["B", "KB", "MB", "GB"]

/-- The `while (n >= 1024 && i < units.length - 1)` loop of `bytesToHuman`, from the
state `(n, i)` to the state at exit. -/
def scaleLoop (n : ℚ) (i : ℕ) : ℚ × ℕ :=
  if h : n ≥ 1024 ∧ i < units.length - 1 then scaleLoop (n / 1024) (i + 1) else (n, i)
termination_by units.length - 1 - i
decreasing_by
  have := h.2
  omega

/-- The function `bytesToHuman` of the script. The guard `!Number.isFinite(bytes)` is the
second case of the match: `Number.isFinite` does not coerce, so only a finite number gets
past it. `units[i]` is read with the text of `undefined` as default, `i` being at most 3. -/
def bytesToHuman (sci : ℚ → String) (bytes : JSValue) : String :=
  match bytes with
  | .number b =>
    let r := scaleLoop b 0
    let val := if r.2 = 0 then integerToString sci (mathRound r.1) else toFixed1 sci r.1
    val ++ " " ++ units.getD r.2 "undefined"
  | _ => ""

/-- The number `bytesToHuman` prints in front of the unit for a finite input below the
`10^21` printing threshold: the result of `Math.round` for the unit `B`, and the
`toFixed(1)` integer over ten otherwise. -/
def printedNumber (b : ℚ) : ℚ :=
  let r := scaleLoop b 0
  if r.2 = 0 then (mathRound r.1 : ℚ) else (toFixedInt r.1 : ℚ) / 10

/-! ## Data model -/

/-- A `File` of the screenshot input, as far as the script reads it. -/
structure File where
  name : String
  type : String
  size : ℕ
  deriving DecidableEq

/-- The report object built by the submit handler. The four screenshot properties are
own properties only when they were assigned (`none` is an absent property). -/
structure Report where
  date : String
  time : String
  title : String
  description : String
  createdAt : String
  screenshotName : Option String
  screenshotType : Option String
  screenshotSize : Option ℕ
  screenshotDataUrl : Option String
  deriving DecidableEq

/-- A `div` with a class and a text content, as `renderPreview` creates them. -/
structure Elem where
  className : String
  textContent : String
  deriving DecidableEq

/-- A card of the preview: a `div` with the two children appended to it. -/
structure Card where
  className : String
  k : Elem
  v : Elem
  deriving DecidableEq

/-- An input's `aria-invalid` attribute together with the text of its error element. -/
structure ErrState where
  ariaInvalid : String
  text : String
  deriving DecidableEq

/-- The five inputs `setError` is called on. -/
inductive Field where
  | date
  | time
  | title
  | desc
  | shot
  deriving DecidableEq

/-- Everything the script reads or writes: the form controls, the result panel, the
variable `lastReport`, the two `localStorage` entries and the theme attributes. -/
structure State where
  dateValue : String
  timeValue : String
  titleValue : String
  descValue : String
  /-- First selected file of the screenshot input, `shotEl.files[0]`. -/
  shotFile : Option File
  dateErr : ErrState
  timeErr : ErrState
  titleErr : ErrState
  descErr : ErrState
  shotErr : ErrState
  fileInfoHidden : Bool
  fileText : String
  shotPreviewSrc : Option String
  shotPreviewDisplay : String
  resultsHidden : Bool
  statusMsg : String
  statusColor : String
  /-- Children of the preview element. -/
  preview : List Card
  downloadDisabled : Bool
  copyDisabled : Bool
  lastReport : Option Report
  /-- The value of `localStorage` under "lastBugReport". -/
  storedReport : Option String
  /-- The value of `localStorage` under "theme". -/
  storedTheme : Option String
  /-- The attribute `data-theme` of the document element. -/
  dataTheme : Option String
  colorScheme : String
  /-- Text of the toggle's icon element, `none` when the page has no such element. -/
  themeToggleIcon : Option String
  /-- Text of the toggle's label element, `none` when the page has no such element. -/
  themeToggleText : Option String
  ariaPressed : String
  ariaLabel : String
  deriving DecidableEq

/-- A page with empty controls and nothing stored, used to build concrete states. -/
def State.blank : State where
  dateValue := ""
  timeValue := ""
  titleValue := ""
  descValue := ""
  shotFile := none
  dateErr := ⟨"false", ""⟩
  timeErr := ⟨"false", ""⟩
  titleErr := ⟨"false", ""⟩
  descErr := ⟨"false", ""⟩
  shotErr := ⟨"false", ""⟩
  fileInfoHidden := true
  fileText := ""
  shotPreviewSrc := none
  shotPreviewDisplay := "none"
  resultsHidden := true
  statusMsg := ""
  statusColor := ""
  preview := []
  downloadDisabled := true
  copyDisabled := true
  lastReport := none
  storedReport := none
  storedTheme := none
  dataTheme := none
  colorScheme := ""
  themeToggleIcon := some ""
  themeToggleText := some ""
  ariaPressed := "true"
  ariaLabel := ""

/-- A page with the four required fields filled in and a PNG file selected, used to build
concrete states. -/
def State.filled : State :=
  { State.blank with
    dateValue := "2024-05-01"
    timeValue := "10:30"
    titleValue := " Crash on save "
    descValue := "The editor closes."
    shotFile := some ⟨"shot.png", "image/png", 2048⟩ }

/-! ## Theme -/

/-- The function `getCurrentTheme` of the script. -/
def getCurrentTheme (s : State) : String :=
  match s.dataTheme with
  | some attr => if attr = "light" ∨ attr = "dark" then attr else "dark"
  | none => "dark"

/-- The function `updateThemeToggle` of the script. -/
def updateThemeToggle (theme : String) (s : State) : State :=
  let isDark : Bool := theme = "dark"
  { s with
    themeToggleIcon := s.themeToggleIcon.map fun _ => if isDark then "🌙" else "☀️"
    themeToggleText := s.themeToggleText.map fun _ => if isDark then "Dark" else "Light"
    ariaPressed := if isDark then "true" else "false"
    ariaLabel := "Switch to " ++ (if isDark then "light" else "dark") ++ " theme" }

/-- The function `applyTheme` of the script; `setItemThrows` says whether
`localStorage.setItem` throws, which the `try` swallows. -/
def applyTheme (setItemThrows : Bool) (theme : String) (s : State) : State :=
  let s := { s with dataTheme := some theme, colorScheme := theme }
  let s := if setItemThrows then s else { s with storedTheme := some theme }
  updateThemeToggle theme s

/-- The click handler of the theme toggle. -/
def themeToggleClick (setItemThrows : Bool) (s : State) : State :=
  let nextTheme := if getCurrentTheme s = "dark" then "light" else "dark"
  applyTheme setItemThrows nextTheme s

/-! ## Validation -/

/-- The function `setError` of the script, on the input `f` and its error element. -/
def setError (f : Field) (message : String) (s : State) : State :=
  let hasError := truthy message
  let e : ErrState :=
    { text := if truthy message then message else ""
      ariaInvalid := if hasError then "true" else "false" }
  match f with
  | .date => { s with dateErr := e }
  | .time => { s with timeErr := e }
  | .title => { s with titleErr := e }
  | .desc => { s with descErr := e }
  | .shot => { s with shotErr := e }

/-- The function `clearErrors` of the script. -/
def clearErrors (s : State) : State :=
  let s := setError .date "" s
  let s := setError .time "" s
  let s := setError .title "" s
  let s := setError .desc "" s
  setError .shot "" s

/-- The function `validateRequired` of the script: the returned flag and the page after
the calls of `setError`. -/
def validateRequired (s : State) : Bool × State :=
  let ok := true
  let (ok, s) :=
    if !truthy s.dateValue then (false, setError .date "Please choose a date." s)
    else (ok, setError .date "" s)
  let (ok, s) :=
    if !truthy s.timeValue then (false, setError .time "Please choose a time." s)
    else (ok, setError .time "" s)
  let t := jsTrim s.titleValue
  let (ok, s) :=
    if !truthy t then (false, setError .title "Please enter a short title." s)
    else (ok, setError .title "" s)
  let d := jsTrim s.descValue
  let (ok, s) :=
    if !truthy d then (false, setError .desc "Please add a description." s)
    else (ok, setError .desc "" s)
  (ok, s)

/-- The function `resetScreenshotUI` of the script; assigning `""` to the value of a
file input empties its file list. -/
def resetScreenshotUI (s : State) : State :=
  let s :=
    { s with
      shotFile := none
      fileInfoHidden := true
      fileText := ""
      shotPreviewSrc := none
      shotPreviewDisplay := "none" }
  setError .shot "" s

/-! ## Preview and Markdown -/

/-- `ToBoolean` on a property that is a string when present: an absent property reads as
`undefined`, which is falsy. -/
def truthyProp : Option String → Bool
  | some v => truthy v
  | none => false

/-- A property that is a string when present, inside a template literal. -/
def propText : Option String → String
  | some v => v
  | none => "undefined"

/-- The value read from the property `screenshotSize`. -/
def sizeValue : Option ℕ → JSValue
  | some n => .number n
  | none => .undefined

/-- An entry of the array `items` of `renderPreview`. -/
structure Item where
  k : String
  v : String
  full : Bool
  deriving DecidableEq

/-- The body of the `for` loop of `renderPreview`: the card made for one item. -/
def makeCard (it : Item) : Card :=
  { className := jsTrim ("kv " ++ (if it.full then "kv--full" else ""))
    k := { className := "kv__k", textContent := it.k }
    v := { className := "kv__v", textContent := it.v } }

/-- The function `renderPreview` of the script: the preview is emptied and one card per
item is appended. -/
def renderPreview (sci : ℚ → String) (report : Report) (s : State) : State :=
  let s := { s with preview := [] }
  let items : List Item :=
    [ { k := "Created At", v := report.createdAt, full := false },
      { k := "Date", v := report.date, full := false },
      { k := "Time", v := report.time, full := false },
      { k := "Title", v := report.title, full := true },
      { k := "Description", v := report.description, full := true } ]
  let items :=
    if truthyProp report.screenshotName then
      items ++ [{ k := "Screenshot",
                  v := propText report.screenshotName ++ " (" ++
                    bytesToHuman sci (sizeValue report.screenshotSize) ++ ")",
                  full := true }]
    else items ++ [{ k := "Screenshot", v := "None", full := true }]
  items.foldl (fun s it => { s with preview := s.preview ++ [makeCard it] }) s

/-- The function `reportToMarkdown` of the script. -/
def reportToMarkdown (report : Report) : String :=
  let lines : List String := []
  let lines := lines ++ ["## Bug Report"]
  let lines := lines ++ [""]
  let lines := lines ++ ["**Date:** " ++ report.date]
  let lines := lines ++ ["**Time:** " ++ report.time]
  let lines := lines ++ ["**Created At:** " ++ report.createdAt]
  let lines := lines ++ [""]
  let lines := lines ++ ["### Title"]
  let lines := lines ++ [report.title]
  let lines := lines ++ [""]
  let lines := lines ++ ["### Description"]
  let lines := lines ++ [report.description]
  let lines := lines ++ [""]
  let lines :=
    if truthyProp report.screenshotName then
      lines ++ ["_Screenshot included in report.json as Data URL (base64)._"]
    else lines
  join "\n" lines

/-- The function `setResultsEnabled` of the script. -/
def setResultsEnabled (enabled : Bool) (s : State) : State :=
  { s with downloadDisabled := !enabled, copyDisabled := !enabled }

/-- The function `showResults` of the script. -/
def showResults (message : String) (s : State) : State :=
  let s := { s with resultsHidden := false }
  let s := { s with statusMsg := if truthy message then message else "" }
  setResultsEnabled s.lastReport.isSome s

/-! ## JSON -/

/-- A member value of a report object: a string or a non-negative integer. The integer
is the size of a file, a safe integer in practice, which `JSON.stringify` prints as its
decimal numeral. -/
inductive JSONPrim where
  | str (s : String)
  | num (n : ℕ)
  deriving DecidableEq

/-- The JSON values of the embedding: an object whose members are strings and
non-negative integers, listed in property order, or such a value on its own. -/
inductive JSONValue where
  | object (members : List (String × JSONPrim))
  | prim (v : JSONPrim)
  deriving DecidableEq

/-- The own properties of a report in creation order, as `JSON.stringify` enumerates
them. -/
def Report.toObject (r : Report) : List (String × JSONPrim) :=
  [("date", .str r.date), ("time", .str r.time), ("title", .str r.title),
   ("description", .str r.description), ("createdAt", .str r.createdAt)] ++
  (match r.screenshotName with
    | some v => [("screenshotName", JSONPrim.str v)]
    | none => []) ++
  (match r.screenshotType with
    | some v => [("screenshotType", JSONPrim.str v)]
    | none => []) ++
  (match r.screenshotSize with
    | some n => [("screenshotSize", JSONPrim.num n)]
    | none => []) ++
  (match r.screenshotDataUrl with
    | some v => [("screenshotDataUrl", JSONPrim.str v)]
    | none => [])

/-- A hexadecimal digit, lower case as `JSON.stringify` writes it. -/
def hexDigit (d : ℕ) : Char := if d < 10 then Char.ofNat (48 + d) else Char.ofNat (87 + d)

/-- What `QuoteJSONString` writes for one character: the two-character escapes, a
`\u00XX` escape for the other control characters, the character itself otherwise. -/
def escapeChar (c : Char) : List Char :=
  if c.toNat = 0x08 then ['\\', 'b']
  else if c.toNat = 0x09 then ['\\', 't']
  else if c.toNat = 0x0A then ['\\', 'n']
  else if c.toNat = 0x0C then ['\\', 'f']
  else if c.toNat = 0x0D then ['\\', 'r']
  else if c = '"' then ['\\', '"']
  else if c = '\\' then ['\\', '\\']
  else if c.toNat < 0x20 then
    ['\\', 'u', '0', '0', hexDigit (c.toNat / 16), hexDigit (c.toNat % 16)]
  else [c]

/-- The characters of a string, each escaped. -/
def escapeAll : List Char → List Char
  | [] => []
  | c :: cs => escapeChar c ++ escapeAll cs

/-- The abstract operation `QuoteJSONString`. -/
def quoteJSONString (s : String) : List Char := '"' :: (escapeAll s.data ++ ['"'])

/-- The JSON text of a member value. -/
def serializePrim : JSONPrim → List Char
  | .str s => quoteJSONString s
  | .num n => decimal n

/-- The members of an object, separated by commas. -/
def serializeMembers : List (String × JSONPrim) → List Char
  | [] => []
  | [m] => quoteJSONString m.1 ++ ':' :: serializePrim m.2
  | m :: m' :: rest =>
    quoteJSONString m.1 ++ ':' :: serializePrim m.2 ++ ',' :: serializeMembers (m' :: rest)

/-- `JSON.stringify` with one argument. -/
def jsonStringify : JSONValue → String
  | .object members => String.mk ('{' :: (serializeMembers members ++ ['}']))
  | .prim v => String.mk (serializePrim v)

/-- JSON white space. -/
def isJsonWs (c : Char) : Bool := c = ' ' || c = '\t' || c = '\n' || c = '\r'

/-- White space skipped between JSON tokens. -/
def skipWs (cs : List Char) : List Char := cs.dropWhile isJsonWs

/-- The value of a hexadecimal digit. -/
def hexVal (c : Char) : Option ℕ :=
  if 48 ≤ c.toNat ∧ c.toNat ≤ 57 then some (c.toNat - 48)
  else if 97 ≤ c.toNat ∧ c.toNat ≤ 102 then some (c.toNat - 87)
  else if 65 ≤ c.toNat ∧ c.toNat ≤ 70 then some (c.toNat - 55)
  else none

/-- The character of a `\uXXXX` escape. An escape naming a surrogate code unit has no
counterpart in `Char` and is refused. -/
def hex4 (a b c d : Char) : Option Char :=
  match hexVal a, hexVal b, hexVal c, hexVal d with
  | some x, some y, some z, some w =>
    let n := ((x * 16 + y) * 16 + z) * 16 + w
    if 0xD800 ≤ n ∧ n ≤ 0xDFFF then none else some (Char.ofNat n)
  | _, _, _, _ => none

/-- The character of a two-character escape, by its second character. -/
def simpleEscape (e : Char) : Option Char :=
  if e = '"' then some '"'
  else if e = '\\' then some '\\'
  else if e = '/' then some '/'
  else if e = 'b' then some (Char.ofNat 0x08)
  else if e = 'f' then some (Char.ofNat 0x0C)
  else if e = 'n' then some '\n'
  else if e = 'r' then some '\r'
  else if e = 't' then some '\t'
  else none

/-- A JSON string after its opening quote: the characters it denotes and the input left
after the closing quote; `none` is a syntax error. -/
def parseStringBody : List Char → Option (List Char × List Char)
  | [] => none
  | c :: rest =>
    if c = '"' then some ([], rest)
    else if c = '\\' then
      match rest with
      | [] => none
      | e :: r =>
        if e = 'u' then
          match r with
          | a :: b :: c' :: d :: r' =>
            match hex4 a b c' d, parseStringBody r' with
            | some ch, some p => some (ch :: p.1, p.2)
            | _, _ => none
          | _ => none
        else
          match simpleEscape e, parseStringBody r with
          | some ch, some p => some (ch :: p.1, p.2)
          | _, _ => none
    else if c.toNat < 0x20 then none
    else
      match parseStringBody rest with
      | some p => some (c :: p.1, p.2)
      | none => none

/-- Whether a character is a decimal digit. -/
def isDigit (c : Char) : Bool := 48 ≤ c.toNat && c.toNat ≤ 57

/-- The digits at the front of the input, accumulated onto `acc`. -/
def parseDigits : List Char → ℕ → ℕ × List Char
  | [], acc => (acc, [])
  | c :: rest, acc =>
    if isDigit c then parseDigits rest (acc * 10 + (c.toNat - 48)) else (acc, c :: rest)

/-- A JSON number without sign, fraction or exponent: `0`, or a digit from 1 to 9 followed
by digits. -/
def parseNat : List Char → Option (ℕ × List Char)
  | [] => none
  | c :: rest =>
    if c = '0' then some (0, rest)
    else if isDigit c then some (parseDigits rest (c.toNat - 48))
    else none

/-- A member value: a string or a number. -/
def parsePrim : List Char → Option (JSONPrim × List Char)
  | [] => none
  | c :: rest =>
    if c = '"' then
      match parseStringBody rest with
      | some p => some (.str (String.mk p.1), p.2)
      | none => none
    else
      match parseNat (c :: rest) with
      | some p => some (.num p.1, p.2)
      | none => none

/-- The members of an object from the first key on, up to and including the closing
brace. Every member consumes input, so `fuel` is taken to be the length of the input. -/
def parseMembers : ℕ → List Char → Option (List (String × JSONPrim) × List Char)
  | 0, _ => none
  | fuel + 1, cs =>
    match skipWs cs with
    | [] => none
    | q :: r =>
      if q = '"' then
        match parseStringBody r with
        | none => none
        | some key =>
          match skipWs key.2 with
          | [] => none
          | colon :: r1 =>
            if colon = ':' then
              match parsePrim (skipWs r1) with
              | none => none
              | some val =>
                match skipWs val.2 with
                | [] => none
                | sep :: r2 =>
                  if sep = ',' then
                    match parseMembers fuel r2 with
                    | some more => some ((String.mk key.1, val.1) :: more.1, more.2)
                    | none => none
                  else if sep = '}' then some ([(String.mk key.1, val.1)], r2)
                  else none
            else none
      else none

/-- An object after its opening brace. -/
def parseObject (cs : List Char) : Option (List (String × JSONPrim) × List Char) :=
  match skipWs cs with
  | [] => none
  | c :: r => if c = '}' then some ([], r) else parseMembers (c :: r).length (c :: r)

/-- `JSON.parse` on the texts of the embedding's JSON values: an object of strings and
non-negative integers, or one such value, with white space allowed between tokens. On
any other text the result is `none`: a `SyntaxError`, or a JSON text outside this
fragment (nested values, fractions, literals), which no report is printed as. Members are
kept in text order: the keys of a report are distinct and none is an array index, so that
is the property order of the object. -/
def jsonParse (text : String) : Option JSONValue :=
  match skipWs text.data with
  | [] => none
  | c :: r =>
    if c = '{' then
      match parseObject r with
      | some p => if skipWs p.2 = [] then some (.object p.1) else none
      | none => none
    else
      match parsePrim (c :: r) with
      | some p => if skipWs p.2 = [] then some (.prim p.1) else none
      | none => none

/-! ## Persistence -/

/-- The function `saveToLocalStorage` of the script; `setItemThrows` says whether
`localStorage.setItem` throws, which the `try` swallows. -/
def saveToLocalStorage (setItemThrows : Bool) (report : Report) (s : State) : State :=
  if setItemThrows then s
  else { s with storedReport := some (jsonStringify (.object report.toObject)) }

/-- The function `loadFromLocalStorage` of the script: `none` is `null` (nothing stored,
an empty string, a text `JSON.parse` refuses, or a parsed value that is not an object),
otherwise the members of the object parsed. -/
def loadFromLocalStorage (s : State) : Option (List (String × JSONPrim)) :=
  match s.storedReport with
  | none => none
  | some raw =>
    if !truthy raw then none
    else
      match jsonParse raw with
      | none => none
      | some (.prim _) => none
      | some (.object members) => some members

/-! ## Handlers -/

/-- The `change` handler of the screenshot input. `readResult` is the outcome of
`readFileAsDataUrl` on the selected file: the data URL, or `none` when the reader fails. -/
def shotChange (sci : ℚ → String) (readResult : Option String) (s : State) : State :=
  let s := setError .shot "" s
  match s.shotFile with
  | none => resetScreenshotUI s
  | some file =>
    if !startsWith file.type "image/" then
      let s := setError .shot "Please select an image file." s
      resetScreenshotUI s
    else
      let s := { s with fileInfoHidden := false }
      let s := { s with fileText := file.name ++ " • " ++ bytesToHuman sci (.number file.size) }
      match readResult with
      | some dataUrl => { s with shotPreviewSrc := some dataUrl, shotPreviewDisplay := "block" }
      | none =>
        let s := setError .shot "Could not read that file. Try a different image." s
        resetScreenshotUI s

/-- What the platform supplies to one run of the submit handler. -/
structure SubmitEnv where
  /-- The value of `new Date().toISOString()`. -/
  now : String
  /-- The outcome of `readFileAsDataUrl` when a file is selected: the data URL, or `none`
  when the reader fails. -/
  readResult : Option String
  /-- Whether `localStorage.setItem` throws. -/
  setItemThrows : Bool

/-- The report the submit handler builds once validation has passed, and the page after
the attempt to read the screenshot. -/
def buildReport (env : SubmitEnv) (s : State) : Report × State :=
  let report : Report :=
    { date := s.dateValue
      time := s.timeValue
      title := jsTrim s.titleValue
      description := jsTrim s.descValue
      createdAt := env.now
      screenshotName := none
      screenshotType := none
      screenshotSize := none
      screenshotDataUrl := none }
  match s.shotFile with
  | none => (report, s)
  | some file =>
    match env.readResult with
    | some dataUrl =>
      ({ report with
          screenshotName := some file.name
          screenshotType := some file.type
          screenshotSize := some file.size
          screenshotDataUrl := some dataUrl }, s)
    | none =>
      let s :=
        setError .shot "Screenshot could not be read; generating report without it." s
      (report, resetScreenshotUI s)

/-- The `submit` handler of the form, run to completion. The focus moved to the first
invalid control is not part of `State`. -/
def submit (sci : ℚ → String) (env : SubmitEnv) (s : State) : State :=
  let s := clearErrors s
  let r := validateRequired s
  let ok := r.1
  let s := r.2
  if !ok then
    let s := showResults "Please fix the highlighted fields." s
    { s with statusColor := "var(--danger)" }
  else
    let s := { s with statusColor := "var(--success)" }
    let b := buildReport env s
    let report := b.1
    let s := b.2
    let s := { s with lastReport := some report }
    let s := saveToLocalStorage env.setItemThrows report s
    let s := renderPreview sci report s
    let s := showResults "Report generated ✅" s
    setResultsEnabled true s

/-! ## Digits and number printing -/

theorem isDigit_digitChar (d : ℕ) (h : d < 10) :
    isDigit (digitChar d) = true ∧ (digitChar d).toNat - 48 = d ∧
      (0 < d → digitChar d ≠ '0') := by
  interval_cases d <;> decide

theorem decimalAux_head (fuel : ℕ) :
    ∀ (n : ℕ), 0 < n → n < fuel →
      ∃ c r, decimalAux fuel n = c :: r ∧ isDigit c = true ∧ c ≠ '0' := by
  induction fuel with
  | zero => intro n _ h; omega
  | succ fuel ih =>
    intro n hpos hn
    unfold decimalAux
    by_cases h : n < 10
    · obtain ⟨h1, _, h3⟩ := isDigit_digitChar n h
      exact ⟨digitChar n, [], by simp [h], h1, h3 hpos⟩
    · obtain ⟨c, r, e, hc, h0⟩ := ih (n / 10) (by omega) (by omega)
      exact ⟨c, r ++ [digitChar (n % 10)], by simp [h, e], hc, h0⟩

theorem decimal_head (n : ℕ) : ∃ c r, decimal n = c :: r ∧ isDigit c = true := by
  by_cases h0 : n = 0
  · subst h0
    exact ⟨'0', [], rfl, by decide⟩
  · obtain ⟨c, r, e, hc, _⟩ := decimalAux_head (n + 1) n (by omega) (by omega)
    exact ⟨c, r, e, hc⟩

theorem decimalAux_fuel (fuel : ℕ) :
    ∀ (fuel' n : ℕ), n < fuel → n < fuel' → decimalAux fuel n = decimalAux fuel' n := by
  induction fuel with
  | zero => intro _ n h; omega
  | succ fuel ih =>
    intro fuel' n h h'
    obtain ⟨k, rfl⟩ : ∃ k, fuel' = k + 1 := ⟨fuel' - 1, by omega⟩
    unfold decimalAux
    by_cases h10 : n < 10
    · simp only [h10, if_true]
    · simp only [h10, if_false]
      rw [ih k (n / 10) (by omega) (by omega)]

theorem decimal_of_lt_ten (n : ℕ) (h : n < 10) : decimal n = [digitChar n] := by
  unfold decimal decimalAux
  simp only [h, if_true]

theorem decimal_of_ten_le (n : ℕ) (h : 10 ≤ n) :
    decimal n = decimal (n / 10) ++ [digitChar (n % 10)] := by
  unfold decimal
  rw [decimalAux]
  simp only [not_lt.mpr h, if_false]
  rw [decimalAux_fuel n (n / 10 + 1) (n / 10) (by omega) (by omega)]

theorem decimal_length_pos (n : ℕ) : 0 < (decimal n).length := by
  obtain ⟨c, r, e, _⟩ := decimal_head n
  rw [e]
  simp

/-- What `toFixed(1)` prints for the integer it picked: the digits of `n / 10`, a point,
and the one digit `n % 10`. -/
theorem fixedString_eq (n : ℕ) :
    fixedString n =
      String.mk (decimal (n / 10)) ++ "." ++ String.mk [digitChar (n % 10)] := by
  unfold fixedString
  by_cases h : n < 10
  · have h0 : n / 10 = 0 := by omega
    have hm : n % 10 = n := by omega
    rw [decimal_of_lt_ten n h, h0, hm, decimal_of_lt_ten 0 (by norm_num)]
    rfl
  · have hp := decimal_length_pos (n / 10)
    rw [decimal_of_ten_le n (by omega)]
    have hl : ¬ ((decimal (n / 10)).length + 1 ≤ 1) := by omega
    simp only [List.length_append, List.length_singleton, hl, if_false,
      Nat.add_sub_cancel, List.take_left', List.drop_left']

theorem mathRound_natCast (b : ℕ) : mathRound (b : ℚ) = (b : ℤ) := by
  unfold mathRound
  rw [Int.floor_eq_iff]
  push_cast
  constructor <;> linarith

theorem integerToString_natCast (sci : ℚ → String) (b : ℕ) (h : b < 10 ^ 21) :
    integerToString sci (b : ℤ) = String.mk (decimal b) := by
  unfold integerToString
  have h1 : ¬ ((b : ℤ) < 0) := by omega
  simp only [Int.natAbs_ofNat, h, if_true, h1, if_false]
  rfl

theorem toFixed1_small (sci : ℚ → String) (x : ℚ) (h0 : 0 ≤ x) (h1 : x < 10 ^ 21) :
    toFixed1 sci x = fixedString (toFixedInt x) := by
  unfold toFixed1
  have hn : ¬ (x < 0) := not_lt.mpr h0
  simp only [hn, if_false, ge_iff_le, not_le.mpr h1]
  rfl

theorem toFixedInt_le (x : ℚ) (h1 : x < 1024) : toFixedInt x ≤ 10240 := by
  unfold toFixedInt
  have h : ⌊x * 10 + 1 / 2⌋ < 10241 := by
    rw [Int.floor_lt]
    push_cast
    linarith
  omega

theorem toFixedInt_lt_iff (x : ℚ) :
    toFixedInt x < 10240 ↔ x < 1023.95 := by
  unfold toFixedInt
  have h : ⌊x * 10 + 1 / 2⌋ < 10240 ↔ x < 1023.95 := by
    rw [Int.floor_lt]
    push_cast
    constructor <;> intro h <;> norm_num at h ⊢ <;> linarith
  rw [← h]
  omega

/-! ## The scaling loop of `bytesToHuman` -/

theorem scaleLoop_stop (n : ℚ) (i : ℕ) (h : ¬ (n ≥ 1024 ∧ i < 3)) :
    scaleLoop n i = (n, i) := by
  rw [scaleLoop]
  simp only [units, List.length_cons, List.length_nil]
  rw [dif_neg]
  simpa using h

theorem scaleLoop_step (n : ℚ) (i : ℕ) (hn : n ≥ 1024) (hi : i < 3) :
    scaleLoop n i = scaleLoop (n / 1024) (i + 1) := by
  rw [scaleLoop]
  simp only [units, List.length_cons, List.length_nil]
  rw [dif_pos]
  exact ⟨hn, by simpa using hi⟩

/-- Closed form of the loop started at `i = 0`. -/
theorem scaleLoop_zero (n : ℚ) :
    scaleLoop n 0 =
      if n < 1024 then (n, 0)
      else if n < 1024 ^ 2 then (n / 1024, 1)
      else if n < 1024 ^ 3 then (n / 1024 ^ 2, 2)
      else (n / 1024 ^ 3, 3) := by
  by_cases h0 : n < 1024
  · rw [if_pos h0, scaleLoop_stop n 0 (by intro h; linarith [h.1])]
  rw [if_neg h0, scaleLoop_step n 0 (by linarith) (by norm_num)]
  by_cases h1 : n < 1024 ^ 2
  · rw [if_pos h1, scaleLoop_stop (n / 1024) _ (by
      intro h
      have := h.1
      rw [ge_iff_le, le_div_iff₀ (by norm_num)] at this
      linarith)]
  have h1' : n / 1024 ≥ 1024 := by
    rw [ge_iff_le, le_div_iff₀ (by norm_num)]
    linarith
  rw [if_neg h1, scaleLoop_step (n / 1024) _ h1' (by norm_num)]
  have e2 : n / 1024 / 1024 = n / 1024 ^ 2 := by ring
  by_cases h2 : n < 1024 ^ 3
  · rw [if_pos h2, scaleLoop_stop (n / 1024 / 1024) _ (by
      intro h
      have := h.1
      rw [e2, ge_iff_le, le_div_iff₀ (by norm_num)] at this
      linarith), e2]
  have h2' : n / 1024 / 1024 ≥ 1024 := by
    rw [e2, ge_iff_le, le_div_iff₀ (by norm_num)]
    linarith
  rw [if_neg h2, scaleLoop_step (n / 1024 / 1024) _ h2' (by norm_num),
    scaleLoop_stop _ _ (by intro h; exact absurd h.2 (by norm_num))]
  congr 1
  ring

/-- The four cases of `bytesToHuman` on a byte count, as index and scaled value. -/
theorem scaleLoop_natCast (b : ℕ) :
    scaleLoop (b : ℚ) 0 =
      if b < 1024 then ((b : ℚ), 0)
      else if b < 1024 ^ 2 then ((b : ℚ) / 1024, 1)
      else if b < 1024 ^ 3 then ((b : ℚ) / 1024 ^ 2, 2)
      else ((b : ℚ) / 1024 ^ 3, 3) := by
  rw [scaleLoop_zero]
  have c0 : ((b : ℚ) < 1024) ↔ b < 1024 := by norm_cast
  have c1 : ((b : ℚ) < 1024 ^ 2) ↔ b < 1024 ^ 2 := by norm_cast
  have c2 : ((b : ℚ) < 1024 ^ 3) ↔ b < 1024 ^ 3 := by norm_cast
  simp only [c0, c1, c2]

theorem bytesToHuman_of_scale (sci : ℚ → String) (b n : ℚ) (i : ℕ)
    (h : scaleLoop b 0 = (n, i)) :
    bytesToHuman sci (.number b) =
      (if i = 0 then integerToString sci (mathRound n) else toFixed1 sci n) ++ " " ++
        units.getD i "undefined" := by
  simp only [bytesToHuman, h]

theorem bytesToHuman_bytes (sci : ℚ → String) (b : ℕ) (h : b < 1024) :
    bytesToHuman sci (.number b) = String.mk (decimal b) ++ " B" := by
  have hs : scaleLoop (b : ℚ) 0 = ((b : ℚ), 0) := by rw [scaleLoop_natCast, if_pos h]
  rw [bytesToHuman_of_scale sci _ _ _ hs, if_pos rfl, mathRound_natCast,
    integerToString_natCast sci b (by omega), String.append_assoc]
  rfl

/-- The KB and MB cases of `bytesToHuman` below `1024^3`: index, digits and string. -/
theorem bytesToHuman_scaled (sci : ℚ → String) (b : ℕ) (h0 : 1024 ≤ b) (h : b < 1024 ^ 3) :
    ∃ i : ℕ, (i = 1 ∨ i = 2) ∧ scaleLoop (b : ℚ) 0 = ((b : ℚ) / 1024 ^ i, i) ∧
      1 ≤ (b : ℚ) / 1024 ^ i ∧ (b : ℚ) / 1024 ^ i < 1024 ∧
      printedNumber b = (toFixedInt ((b : ℚ) / 1024 ^ i) : ℚ) / 10 ∧
      bytesToHuman sci (.number b) =
        fixedString (toFixedInt ((b : ℚ) / 1024 ^ i)) ++ " " ++ units.getD i "undefined" := by
  have hs := scaleLoop_natCast b
  have hb : (1024 : ℚ) ≤ b := by exact_mod_cast h0
  have hb3 : (b : ℚ) < 1024 ^ 3 := by exact_mod_cast h
  rw [if_neg (by omega)] at hs
  by_cases h1 : b < 1024 ^ 2
  · rw [if_pos h1] at hs
    have hb1 : (b : ℚ) < 1024 ^ 2 := by exact_mod_cast h1
    have l1 : 1 ≤ (b : ℚ) / 1024 ^ 1 := by rw [le_div_iff₀ (by norm_num)]; linarith
    have l2 : (b : ℚ) / 1024 ^ 1 < 1024 := by rw [div_lt_iff₀ (by norm_num)]; linarith
    rw [← pow_one (1024 : ℚ)] at hs
    refine ⟨1, Or.inl rfl, hs, l1, l2, ?_, ?_⟩
    · simp only [printedNumber, hs]
      rw [if_neg (by norm_num)]
    · rw [bytesToHuman_of_scale sci _ _ _ hs, if_neg (by norm_num),
        toFixed1_small sci _ (by linarith) (by linarith)]
  · rw [if_neg h1, if_pos h] at hs
    have hb1 : ((1024 : ℚ)) ^ 2 ≤ b := by exact_mod_cast not_lt.mp h1
    have l1 : 1 ≤ (b : ℚ) / 1024 ^ 2 := by rw [le_div_iff₀ (by norm_num)]; linarith
    have l2 : (b : ℚ) / 1024 ^ 2 < 1024 := by rw [div_lt_iff₀ (by norm_num)]; linarith
    refine ⟨2, Or.inr rfl, hs, l1, l2, ?_, ?_⟩
    · simp only [printedNumber, hs]
      rw [if_neg (by norm_num)]
    · rw [bytesToHuman_of_scale sci _ _ _ hs, if_neg (by norm_num),
        toFixed1_small sci _ (by linarith) (by linarith)]

/-- The index, the unit, the scaled value and the string of `bytesToHuman` on a byte
count. -/
theorem bytesToHuman_index (sci : ℚ → String) (b : ℕ) :
    ∃ i : ℕ, scaleLoop (b : ℚ) 0 = ((b : ℚ) / 1024 ^ i, i) ∧
      (units.getD i "undefined" = "B" ↔ b < 1024) ∧
      (units.getD i "undefined" = "KB" ↔ 1024 ≤ b ∧ b < 1024 ^ 2) ∧
      (units.getD i "undefined" = "MB" ↔ 1024 ^ 2 ≤ b ∧ b < 1024 ^ 3) ∧
      (units.getD i "undefined" = "GB" ↔ 1024 ^ 3 ≤ b) ∧
      (units.getD i "undefined" = "KB" ∨ units.getD i "undefined" = "MB" →
        1 ≤ (b : ℚ) / 1024 ^ i ∧ (b : ℚ) / 1024 ^ i < 1024) ∧
      bytesToHuman sci (.number b) =
        (if i = 0 then integerToString sci (mathRound ((b : ℚ) / 1024 ^ i))
          else toFixed1 sci ((b : ℚ) / 1024 ^ i)) ++ " " ++ units.getD i "undefined" ∧
      (i = 0 → bytesToHuman sci (.number b) = String.mk (decimal b) ++ " B") := by
  have hs := scaleLoop_natCast b
  by_cases h0 : b < 1024
  · rw [if_pos h0] at hs
    refine ⟨0, by rw [hs]; simp, by simp [units, h0], by simp [units]; omega,
      by simp [units]; omega, by simp [units]; omega, by simp [units], ?_,
      fun _ => bytesToHuman_bytes sci b h0⟩
    rw [bytesToHuman_of_scale sci _ _ _ hs, pow_zero, div_one]
  by_cases h1 : b < 1024 ^ 2
  · rw [if_neg h0, if_pos h1] at hs
    have hb : (1024 : ℚ) ≤ b := by exact_mod_cast not_lt.mp h0
    have hb1 : (b : ℚ) < 1024 ^ 2 := by exact_mod_cast h1
    refine ⟨1, by rw [hs]; simp, by simp [units]; omega, by simp [units]; omega,
      by simp [units]; omega, by simp [units]; omega, ?_, ?_, by simp⟩
    · intro _
      constructor
      · rw [le_div_iff₀ (by norm_num)]; linarith
      · rw [div_lt_iff₀ (by norm_num)]; linarith
    · rw [bytesToHuman_of_scale sci _ _ _ hs, pow_one]
  by_cases h2 : b < 1024 ^ 3
  · rw [if_neg h0, if_neg h1, if_pos h2] at hs
    have hb : ((1024 : ℚ)) ^ 2 ≤ b := by exact_mod_cast not_lt.mp h1
    have hb1 : (b : ℚ) < 1024 ^ 3 := by exact_mod_cast h2
    refine ⟨2, by rw [hs], by simp [units]; omega, by simp [units]; omega,
      by simp [units]; omega, by simp [units]; omega, ?_, ?_, by simp⟩
    · intro _
      constructor
      · rw [le_div_iff₀ (by norm_num)]; linarith
      · rw [div_lt_iff₀ (by norm_num)]; linarith
    · rw [bytesToHuman_of_scale sci _ _ _ hs]
  · rw [if_neg h0, if_neg h1, if_neg h2] at hs
    refine ⟨3, by rw [hs], by simp [units]; omega, by simp [units]; omega,
      by simp [units]; omega, by simp [units]; omega, by simp [units], ?_, by simp⟩
    rw [bytesToHuman_of_scale sci _ _ _ hs]

/-! ## JSON: parsing what was printed -/

theorem parseDigits_decimalAux (fuel : ℕ) :
    ∀ (n : ℕ), n < fuel → ∀ (tail : List Char) (acc : ℕ),
      parseDigits (decimalAux fuel n ++ tail) acc =
        parseDigits tail (acc * 10 ^ (decimalAux fuel n).length + n) := by
  induction fuel with
  | zero => intro n h; omega
  | succ fuel ih =>
    intro n hn tail acc
    unfold decimalAux
    by_cases h : n < 10
    · obtain ⟨h1, h2, _⟩ := isDigit_digitChar n h
      simp only [h, if_true, List.singleton_append, List.length_singleton, pow_one]
      rw [parseDigits]
      simp only [h1, if_true, h2]
    · have hlt : n / 10 < fuel := by omega
      obtain ⟨h1, h2, _⟩ := isDigit_digitChar (n % 10) (Nat.mod_lt _ (by norm_num))
      simp only [h, if_false, List.append_assoc, List.singleton_append, List.length_append,
        List.length_singleton]
      rw [ih (n / 10) hlt, parseDigits]
      simp only [h1, if_true, h2]
      congr 1
      rw [pow_succ]
      have := Nat.div_add_mod n 10
      linarith

theorem parseDigits_stop (tail : List Char) (acc : ℕ)
    (ht : ∀ c r, tail = c :: r → isDigit c = false) :
    parseDigits tail acc = (acc, tail) := by
  cases tail with
  | nil => rfl
  | cons c r =>
    rw [parseDigits]
    simp [ht c r rfl]

/-- A number printed by `decimal` is read back by `parseNat`. -/
theorem parseNat_decimal (n : ℕ) (tail : List Char)
    (ht : ∀ c r, tail = c :: r → isDigit c = false) :
    parseNat (decimal n ++ tail) = some (n, tail) := by
  by_cases h0 : n = 0
  · subst h0
    rfl
  · obtain ⟨c, r, e, hc, hz⟩ := decimalAux_head (n + 1) n (by omega) (by omega)
    have hp := parseDigits_decimalAux (n + 1) n (by omega) tail 0
    unfold decimal
    rw [e] at hp ⊢
    rw [List.cons_append, parseNat]
    simp only [hz, if_false, hc, if_true]
    rw [List.cons_append, parseDigits] at hp
    simp only [hc, if_true, zero_mul, zero_add] at hp
    rw [hp, parseDigits_stop tail _ ht]

theorem hex4_control (n : ℕ) (h : n < 32) :
    hex4 '0' '0' (hexDigit (n / 16)) (hexDigit (n % 16)) = some (Char.ofNat n) := by
  interval_cases n <;> decide

theorem char_eq_ofNat (c : Char) (n : ℕ) (h : c.toNat = n) : c = Char.ofNat n := by
  rw [← h, Char.ofNat_toNat]

theorem parseStringBody_quote (rest : List Char) :
    parseStringBody ('"' :: rest) = some ([], rest) := by
  rw [parseStringBody.eq_def]
  simp

theorem parseStringBody_plain (c : Char) (rest : List Char) (hq : c ≠ '"') (hb : c ≠ '\\')
    (hl : ¬ c.toNat < 0x20) (p : List Char × List Char)
    (hp : parseStringBody rest = some p) :
    parseStringBody (c :: rest) = some (c :: p.1, p.2) := by
  rw [parseStringBody.eq_def]
  simp [hq, hb, hl, hp]

theorem parseStringBody_simple (e ch : Char) (rest : List Char) (hu : e ≠ 'u')
    (he : simpleEscape e = some ch) (p : List Char × List Char)
    (hp : parseStringBody rest = some p) :
    parseStringBody ('\\' :: e :: rest) = some (ch :: p.1, p.2) := by
  rw [parseStringBody.eq_def]
  simp [hu, he, hp]

theorem parseStringBody_unicode (a b c d ch : Char) (rest : List Char)
    (he : hex4 a b c d = some ch) (p : List Char × List Char)
    (hp : parseStringBody rest = some p) :
    parseStringBody ('\\' :: 'u' :: a :: b :: c :: d :: rest) = some (ch :: p.1, p.2) := by
  rw [parseStringBody.eq_def]
  simp [he, hp]

/-- A string body printed by `escapeAll` and closed by a quote is read back. -/
theorem parseStringBody_escapeAll (cs : List Char) (tail : List Char) :
    parseStringBody (escapeAll cs ++ '"' :: tail) = some (cs, tail) := by
  induction cs with
  | nil => exact parseStringBody_quote tail
  | cons c cs ih =>
    unfold escapeAll escapeChar
    by_cases h8 : c.toNat = 0x08
    · have := char_eq_ofNat c _ h8
      subst this
      exact parseStringBody_simple 'b' _ _ (by decide) (by decide) _ ih
    by_cases h9 : c.toNat = 0x09
    · have := char_eq_ofNat c _ h9
      subst this
      exact parseStringBody_simple 't' _ _ (by decide) (by decide) _ ih
    by_cases hA : c.toNat = 0x0A
    · have := char_eq_ofNat c _ hA
      subst this
      exact parseStringBody_simple 'n' _ _ (by decide) (by decide) _ ih
    by_cases hC : c.toNat = 0x0C
    · have := char_eq_ofNat c _ hC
      subst this
      exact parseStringBody_simple 'f' _ _ (by decide) (by decide) _ ih
    by_cases hD : c.toNat = 0x0D
    · have := char_eq_ofNat c _ hD
      subst this
      exact parseStringBody_simple 'r' _ _ (by decide) (by decide) _ ih
    by_cases hq : c = '"'
    · subst hq
      exact parseStringBody_simple '"' _ _ (by decide) (by decide) _ ih
    by_cases hb : c = '\\'
    · subst hb
      exact parseStringBody_simple '\\' _ _ (by decide) (by decide) _ ih
    by_cases hl : c.toNat < 0x20
    · have hx := hex4_control c.toNat hl
      rw [Char.ofNat_toNat] at hx
      simp only [h8, h9, hA, hC, hD, hq, hb, hl, if_false, if_true]
      exact parseStringBody_unicode _ _ _ _ _ _ hx _ ih
    · simp only [h8, h9, hA, hC, hD, hq, hb, hl, if_false]
      exact parseStringBody_plain c _ hq hb hl _ ih

theorem skipWs_cons (c : Char) (r : List Char) (h : isJsonWs c = false) :
    skipWs (c :: r) = c :: r := by
  simp [skipWs, List.dropWhile, h]

theorem skipWs_nil : skipWs [] = [] := rfl

theorem parsePrim_quote (rest : List Char) (p : List Char × List Char)
    (hp : parseStringBody rest = some p) :
    parsePrim ('"' :: rest) = some (.str (String.mk p.1), p.2) := by
  simp [parsePrim, hp]

theorem parsePrim_number (c : Char) (rest : List Char) (hq : c ≠ '"') (p : ℕ × List Char)
    (hp : parseNat (c :: rest) = some p) :
    parsePrim (c :: rest) = some (.num p.1, p.2) := by
  simp [parsePrim, hq, hp]

theorem isDigit_not_special (c : Char) (h : isDigit c = true) :
    c ≠ '"' ∧ isJsonWs c = false := by
  have h' : 48 ≤ c.toNat ∧ c.toNat ≤ 57 := by simpa [isDigit] using h
  refine ⟨?_, ?_⟩
  · rintro rfl
    revert h'
    decide
  · have e : ∀ d : Char, c = d → c.toNat = d.toNat := fun d hd => by rw [hd]
    simp only [isJsonWs, Bool.or_eq_false_iff, decide_eq_false_iff_not]
    refine ⟨⟨⟨?_, ?_⟩, ?_⟩, ?_⟩ <;> intro hc <;> have := e _ hc <;> revert this <;>
      (intro h2; rw [h2] at h'; revert h'; decide)

/-- The first character of a printed member value is neither white space nor missing. -/
theorem serializePrim_head (v : JSONPrim) :
    ∃ c r, serializePrim v = c :: r ∧ isJsonWs c = false := by
  cases v with
  | str s => exact ⟨'"', _, rfl, by decide⟩
  | num n =>
    obtain ⟨c, r, e, hc⟩ := decimal_head n
    exact ⟨c, r, e, (isDigit_not_special c hc).2⟩

/-- A printed member value is read back, provided no digit follows it. -/
theorem parsePrim_serializePrim (v : JSONPrim) (tail : List Char)
    (ht : ∀ c r, tail = c :: r → isDigit c = false) :
    parsePrim (serializePrim v ++ tail) = some (v, tail) := by
  cases v with
  | str s =>
    have h := parseStringBody_escapeAll s.data tail
    simp only [serializePrim, quoteJSONString, List.cons_append, List.append_assoc,
      List.singleton_append, List.nil_append]
    rw [parsePrim_quote _ _ h]
  | num n =>
    obtain ⟨c, r, e, hc⟩ := decimal_head n
    have h := parseNat_decimal n tail ht
    simp only [serializePrim]
    rw [e, List.cons_append] at h ⊢
    rw [parsePrim_number c _ (isDigit_not_special c hc).1 _ h]

/-- One step of `parseMembers` on a printed member followed by `rest`. -/
theorem parseMembers_member (fuel : ℕ) (m : String × JSONPrim) (sep : Char)
    (rest : List Char) (hs : sep = ',' ∨ sep = '}') :
    parseMembers (fuel + 1)
        (quoteJSONString m.1 ++ ':' :: serializePrim m.2 ++ sep :: rest) =
      if sep = ',' then
        match parseMembers fuel rest with
        | some more => some ((m.1, m.2) :: more.1, more.2)
        | none => none
      else some ([(m.1, m.2)], rest) := by
  have hsep : isDigit sep = false ∧ isJsonWs sep = false := by
    rcases hs with rfl | rfl <;> exact ⟨by decide, by decide⟩
  have hkey := parseStringBody_escapeAll m.1.data
    (':' :: (serializePrim m.2 ++ sep :: rest))
  have hval := parsePrim_serializePrim m.2 (sep :: rest) (by
    intro c r h
    cases h
    exact hsep.1)
  obtain ⟨c, r, e, hc⟩ := serializePrim_head m.2
  have hws : skipWs (serializePrim m.2 ++ sep :: rest) = serializePrim m.2 ++ sep :: rest := by
    rw [e, List.cons_append, skipWs_cons _ _ hc]
  have e1 : quoteJSONString m.1 ++ ':' :: serializePrim m.2 ++ sep :: rest =
      '"' :: (escapeAll m.1.data ++ '"' :: ':' :: (serializePrim m.2 ++ sep :: rest)) := by
    simp [quoteJSONString]
  rw [e1, parseMembers, skipWs_cons _ _ (by decide)]
  simp only [if_true, hkey]
  rw [skipWs_cons _ _ (by decide)]
  simp only [if_true, hws, hval]
  rw [skipWs_cons _ _ hsep.2]
  rcases hs with rfl | rfl
  · simp
  · simp

theorem serializeMembers_cons_cons (m m' : String × JSONPrim)
    (rest : List (String × JSONPrim)) (tail : List Char) :
    serializeMembers (m :: m' :: rest) ++ tail =
      quoteJSONString m.1 ++ ':' :: serializePrim m.2 ++
        ',' :: (serializeMembers (m' :: rest) ++ tail) := by
  simp [serializeMembers]

theorem serializeMembers_single (m : String × JSONPrim) (tail : List Char) :
    serializeMembers [m] ++ '}' :: tail =
      quoteJSONString m.1 ++ ':' :: serializePrim m.2 ++ '}' :: tail := by
  simp [serializeMembers]

/-- The printed members of a non-empty object, closed by a brace, are read back by
`parseMembers` as soon as the fuel is at least their number. -/
theorem parseMembers_serializeMembers (ms : List (String × JSONPrim)) :
    ∀ (m : String × JSONPrim) (fuel : ℕ) (tail : List Char), ms.length < fuel →
      parseMembers fuel (serializeMembers (m :: ms) ++ '}' :: tail) =
        some (m :: ms, tail) := by
  induction ms with
  | nil =>
    intro m fuel tail hf
    obtain ⟨fuel, rfl⟩ : ∃ k, fuel = k + 1 := ⟨fuel - 1, by omega⟩
    rw [serializeMembers_single, parseMembers_member _ _ _ _ (Or.inr rfl)]
    simp
  | cons m' ms ih =>
    intro m fuel tail hf
    obtain ⟨fuel, rfl⟩ : ∃ k, fuel = k + 1 := ⟨fuel - 1, by omega⟩
    have hf' : ms.length < fuel := by
      simp only [List.length_cons] at hf
      omega
    rw [serializeMembers_cons_cons, parseMembers_member _ _ _ _ (Or.inl rfl), if_pos rfl,
      ih m' fuel tail hf']

theorem length_le_serializeMembers (ms : List (String × JSONPrim)) :
    ms.length ≤ (serializeMembers ms).length := by
  induction ms with
  | nil => simp [serializeMembers]
  | cons m ms ih =>
    cases ms with
    | nil => simp [serializeMembers, quoteJSONString]
    | cons m' ms =>
      rw [← List.append_nil (serializeMembers (m :: m' :: ms)), serializeMembers_cons_cons]
      simp only [List.append_nil, List.length_append, List.length_cons, quoteJSONString] at ih ⊢
      omega

/-- `JSON.parse` undoes `JSON.stringify` on every value of the embedding. -/
theorem jsonParse_jsonStringify (v : JSONValue) : jsonParse (jsonStringify v) = some v := by
  cases v with
  | prim p =>
    obtain ⟨c, r, e, hc⟩ := serializePrim_head p
    have h := parsePrim_serializePrim p [] (by intro c r h; cases h)
    rw [List.append_nil] at h
    simp only [jsonParse, jsonStringify]
    rw [e] at h ⊢
    rw [skipWs_cons _ _ hc]
    have hne : c ≠ '{' := by
      rintro rfl
      cases p with
      | str s => simp [serializePrim, quoteJSONString] at e
      | num n =>
        obtain ⟨c', r', e', hc'⟩ := decimal_head n
        simp only [serializePrim] at e
        rw [e'] at e
        cases e
        revert hc'
        decide
    simp only [hne, if_false, h, skipWs_nil, if_true]
  | object ms =>
    simp only [jsonParse, jsonStringify]
    rw [skipWs_cons _ _ (by decide)]
    simp only [if_true]
    cases ms with
    | nil =>
      simp only [serializeMembers, List.nil_append, parseObject]
      rw [skipWs_cons _ _ (by decide)]
      simp only [if_true, skipWs_nil]
    | cons m ms =>
      have hq : ∃ r, serializeMembers (m :: ms) ++ ['}'] = '"' :: r := by
        cases ms with
        | nil =>
          refine ⟨escapeAll m.1.data ++ '"' :: ':' :: (serializePrim m.2 ++ ['}']), ?_⟩
          simp [serializeMembers, quoteJSONString]
        | cons m' ms =>
          refine ⟨escapeAll m.1.data ++ '"' :: ':' :: (serializePrim m.2 ++
            ',' :: (serializeMembers (m' :: ms) ++ ['}'])), ?_⟩
          simp [serializeMembers, quoteJSONString]
      obtain ⟨r, hr⟩ := hq
      have hlen : ms.length < ('"' :: r).length := by
        rw [← hr]
        have := length_le_serializeMembers (m :: ms)
        simp only [List.length_append, List.length_cons, List.length_nil] at this ⊢
        omega
      have hp := parseMembers_serializeMembers ms m _ [] hlen
      rw [hr] at hp
      simp only [parseObject]
      rw [hr, skipWs_cons _ _ (by decide)]
      simp only [show ('"' : Char) ≠ '}' by decide, if_false, hp, skipWs_nil, if_true]

theorem jsonStringify_object_truthy (ms : List (String × JSONPrim)) :
    truthy (jsonStringify (.object ms)) = true := by
  have h : jsonStringify (.object ms) ≠ "" := by
    intro h
    have := congrArg String.data h
    simp [jsonStringify] at this
  simpa [truthy] using h

/-- Reading back what `saveToLocalStorage` wrote. -/
theorem loadFromLocalStorage_of_stored (s : State) (ms : List (String × JSONPrim))
    (h : s.storedReport = some (jsonStringify (.object ms))) :
    loadFromLocalStorage s = some ms := by
  unfold loadFromLocalStorage
  simp only [h, jsonStringify_object_truthy, Bool.not_true, Bool.false_eq_true, if_false,
    jsonParse_jsonStringify]

/-! ## The page: validation, preview, theme, handlers -/

theorem validateRequired_clearErrors (s : State) :
    (validateRequired (clearErrors s)).1 = (validateRequired s).1 := by
  by_cases h1 : s.dateValue = "" <;> by_cases h2 : s.timeValue = "" <;>
    by_cases h3 : jsTrim s.titleValue = "" <;> by_cases h4 : jsTrim s.descValue = "" <;>
    simp [validateRequired, clearErrors, setError, truthy, h1, h2, h3, h4]

theorem validateRequired_values (s : State) :
    (validateRequired s).2.dateValue = s.dateValue ∧
    (validateRequired s).2.timeValue = s.timeValue ∧
    (validateRequired s).2.titleValue = s.titleValue ∧
    (validateRequired s).2.descValue = s.descValue ∧
    (validateRequired s).2.shotFile = s.shotFile ∧
    (validateRequired s).2.lastReport = s.lastReport ∧
    (validateRequired s).2.storedReport = s.storedReport ∧
    (validateRequired s).2.preview = s.preview := by
  by_cases h1 : s.dateValue = "" <;> by_cases h2 : s.timeValue = "" <;>
    by_cases h3 : jsTrim s.titleValue = "" <;> by_cases h4 : jsTrim s.descValue = "" <;>
    simp [validateRequired, setError, truthy, h1, h2, h3, h4]

theorem clearErrors_values (s : State) :
    (clearErrors s).dateValue = s.dateValue ∧
    (clearErrors s).timeValue = s.timeValue ∧
    (clearErrors s).titleValue = s.titleValue ∧
    (clearErrors s).descValue = s.descValue ∧
    (clearErrors s).shotFile = s.shotFile ∧
    (clearErrors s).lastReport = s.lastReport ∧
    (clearErrors s).storedReport = s.storedReport ∧
    (clearErrors s).preview = s.preview := by
  simp [clearErrors, setError]

theorem showResults_fields (m : String) (s : State) :
    (showResults m s).lastReport = s.lastReport ∧
    (showResults m s).storedReport = s.storedReport ∧
    (showResults m s).preview = s.preview ∧
    (showResults m s).statusMsg = (if truthy m then m else "") ∧
    (showResults m s).downloadDisabled = !s.lastReport.isSome ∧
    (showResults m s).copyDisabled = !s.lastReport.isSome :=
  ⟨rfl, rfl, rfl, rfl, rfl, rfl⟩

theorem submit_of_invalid (sci : ℚ → String) (env : SubmitEnv) (s : State)
    (h : (validateRequired (clearErrors s)).1 = false) :
    submit sci env s =
      { showResults "Please fix the highlighted fields." (validateRequired (clearErrors s)).2
        with statusColor := "var(--danger)" } := by
  unfold submit
  simp only [h, Bool.not_false, if_true]

theorem renderPreview_preview (sci : ℚ → String) (r : Report) (s : State) :
    renderPreview sci r s =
      { s with preview :=
        [ ⟨"kv", ⟨"kv__k", "Created At"⟩, ⟨"kv__v", r.createdAt⟩⟩,
          ⟨"kv", ⟨"kv__k", "Date"⟩, ⟨"kv__v", r.date⟩⟩,
          ⟨"kv", ⟨"kv__k", "Time"⟩, ⟨"kv__v", r.time⟩⟩,
          ⟨"kv kv--full", ⟨"kv__k", "Title"⟩, ⟨"kv__v", r.title⟩⟩,
          ⟨"kv kv--full", ⟨"kv__k", "Description"⟩, ⟨"kv__v", r.description⟩⟩,
          ⟨"kv kv--full", ⟨"kv__k", "Screenshot"⟩, ⟨"kv__v",
            if truthyProp r.screenshotName then
              propText r.screenshotName ++ " (" ++
                bytesToHuman sci (sizeValue r.screenshotSize) ++ ")"
            else "None"⟩⟩ ] } := by
  have e1 : jsTrim "kv " = "kv" := by decide
  have e2 : jsTrim "kv kv--full" = "kv kv--full" := by decide
  unfold renderPreview
  by_cases h : truthyProp r.screenshotName = true
  · simp [h, makeCard, e1, e2]
  · simp [h, makeCard, e1, e2]

theorem getCurrentTheme_cases (s : State) :
    (s.dataTheme = some "light" ∧ getCurrentTheme s = "light") ∨
    (s.dataTheme ≠ some "light" ∧ getCurrentTheme s = "dark") := by
  unfold getCurrentTheme
  cases h : s.dataTheme with
  | none => simp
  | some a =>
    by_cases h1 : a = "light"
    · simp [h1]
    · by_cases h2 : a = "dark"
      · simp [h2]
      · simp [h1, h2]

theorem getCurrentTheme_of_attr (s : State) :
    (s.dataTheme = some "light" → getCurrentTheme s = "light") ∧
    (s.dataTheme = some "dark" → getCurrentTheme s = "dark") := by
  constructor <;> intro h <;> simp [getCurrentTheme, h]

theorem themeToggleClick_of_dark (throws : Bool) (s : State)
    (h : getCurrentTheme s = "dark") :
    (themeToggleClick throws s).dataTheme = some "light" ∧
    (themeToggleClick throws s).ariaPressed = "false" := by
  unfold themeToggleClick
  rw [if_pos h]
  cases throws <;> exact ⟨rfl, rfl⟩

theorem themeToggleClick_of_light (throws : Bool) (s : State)
    (h : getCurrentTheme s = "light") :
    (themeToggleClick throws s).dataTheme = some "dark" ∧
    (themeToggleClick throws s).ariaPressed = "true" := by
  unfold themeToggleClick
  rw [if_neg (by rw [h]; decide)]
  cases throws <;> exact ⟨rfl, rfl⟩

/-- On a selected file whose type does not start with "image/", the `change` handler
ends in `resetScreenshotUI`, whose last statement clears the error just set. -/
theorem shotChange_nonImage (sci : ℚ → String) (readResult : Option String) (s : State)
    (file : File) (hf : s.shotFile = some file)
    (ht : startsWith file.type "image/" = false) :
    shotChange sci readResult s =
      resetScreenshotUI
        (setError .shot "Please select an image file." (setError .shot "" s)) := by
  have h : (setError .shot "" s).shotFile = some file := hf
  unfold shotChange
  simp only [h, ht, Bool.not_false, if_true]

theorem submit_of_valid (sci : ℚ → String) (env : SubmitEnv) (s : State)
    (h : (validateRequired (clearErrors s)).1 = true) :
    submit sci env s =
      setResultsEnabled true
        (showResults "Report generated ✅"
          (renderPreview sci
            (buildReport env
              { (validateRequired (clearErrors s)).2 with
                statusColor := "var(--success)" }).1
            (saveToLocalStorage env.setItemThrows
              (buildReport env
                { (validateRequired (clearErrors s)).2 with
                  statusColor := "var(--success)" }).1
              { (buildReport env
                  { (validateRequired (clearErrors s)).2 with
                    statusColor := "var(--success)" }).2 with
                lastReport := some
                  (buildReport env
                    { (validateRequired (clearErrors s)).2 with
                      statusColor := "var(--success)" }).1 }))) := by
  unfold submit
  simp only [h, Bool.not_true, Bool.false_eq_true, if_false]

/-- The report of a valid submit and the state it is built in, by what the form holds. -/
theorem buildReport_fields (env : SubmitEnv) (s : State) :
    (buildReport env s).1.date = s.dateValue ∧
    (buildReport env s).1.time = s.timeValue ∧
    (buildReport env s).1.title = jsTrim s.titleValue ∧
    (buildReport env s).1.description = jsTrim s.descValue ∧
    (buildReport env s).1.createdAt = env.now ∧
    (buildReport env s).2.storedReport = s.storedReport := by
  unfold buildReport
  cases s.shotFile with
  | none => exact ⟨rfl, rfl, rfl, rfl, rfl, rfl⟩
  | some file =>
    cases env.readResult with
    | none => exact ⟨rfl, rfl, rfl, rfl, rfl, rfl⟩
    | some u => exact ⟨rfl, rfl, rfl, rfl, rfl, rfl⟩

theorem buildReport_unreadable (env : SubmitEnv) (s : State) (file : File)
    (hf : s.shotFile = some file) (hr : env.readResult = none) :
    (buildReport env s).1 =
      ⟨s.dateValue, s.timeValue, jsTrim s.titleValue, jsTrim s.descValue, env.now,
        none, none, none, none⟩ := by
  unfold buildReport
  simp only [hf, hr]

/-- The report built depends on the page only through the four values and the file. -/
theorem buildReport_congr (env : SubmitEnv) (s t : State)
    (h1 : t.dateValue = s.dateValue) (h2 : t.timeValue = s.timeValue)
    (h3 : t.titleValue = s.titleValue) (h4 : t.descValue = s.descValue)
    (h5 : t.shotFile = s.shotFile) :
    (buildReport env t).1 = (buildReport env s).1 := by
  unfold buildReport
  rw [h1, h2, h3, h4, h5]
  cases s.shotFile with
  | none => rfl
  | some file =>
    cases env.readResult with
    | none => rfl
    | some u => rfl

/-- The three ways the report of a valid submit comes out. -/
theorem buildReport_cases (env : SubmitEnv) (s : State) :
    (s.shotFile = none ∧
      (buildReport env s).1 =
        ⟨s.dateValue, s.timeValue, jsTrim s.titleValue, jsTrim s.descValue, env.now,
          none, none, none, none⟩) ∨
    (∃ file, s.shotFile = some file ∧ env.readResult = none ∧
      (buildReport env s).1 =
        ⟨s.dateValue, s.timeValue, jsTrim s.titleValue, jsTrim s.descValue, env.now,
          none, none, none, none⟩) ∨
    (∃ file dataUrl, s.shotFile = some file ∧ env.readResult = some dataUrl ∧
      (buildReport env s).1 =
        ⟨s.dateValue, s.timeValue, jsTrim s.titleValue, jsTrim s.descValue, env.now,
          some file.name, some file.type, some file.size, some dataUrl⟩) := by
  unfold buildReport
  cases hf : s.shotFile with
  | none => exact Or.inl ⟨rfl, rfl⟩
  | some file =>
    cases hr : env.readResult with
    | none => exact Or.inr (Or.inl ⟨file, rfl, rfl, rfl⟩)
    | some u => exact Or.inr (Or.inr ⟨file, u, rfl, rfl, rfl⟩)

/-- What a valid submit leaves behind, in terms of the report built from the form. -/
theorem submit_valid_fields (sci : ℚ → String) (env : SubmitEnv) (s : State)
    (h : (validateRequired s).1 = true) :
    (submit sci env s).lastReport = some (buildReport env s).1 ∧
    (submit sci env s).storedReport =
      (if env.setItemThrows then s.storedReport
        else some (jsonStringify (.object (buildReport env s).1.toObject))) ∧
    (submit sci env s).preview = (renderPreview sci (buildReport env s).1 s).preview ∧
    (submit sci env s).statusMsg = "Report generated ✅" ∧
    (submit sci env s).downloadDisabled = false ∧
    (submit sci env s).copyDisabled = false := by
  have hc := validateRequired_clearErrors s
  rw [h] at hc
  obtain ⟨v1, v2, v3, v4, v5, _, v7, _⟩ := validateRequired_values (clearErrors s)
  obtain ⟨c1, c2, c3, c4, c5, _, c7, _⟩ := clearErrors_values s
  rw [submit_of_valid sci env s hc]
  generalize (validateRequired (clearErrors s)).2 = v at *
  have hr : (buildReport env { v with statusColor := "var(--success)" }).1 =
      (buildReport env s).1 :=
    buildReport_congr env s _ (v1.trans c1) (v2.trans c2) (v3.trans c3) (v4.trans c4)
      (v5.trans c5)
  have b6 := (buildReport_fields env { v with statusColor := "var(--success)" }).2.2.2.2.2
  rw [hr]
  generalize (buildReport env { v with statusColor := "var(--success)" }).2 = s₂ at *
  generalize (buildReport env s).1 = report
  refine ⟨?_, ?_, ?_, rfl, rfl, rfl⟩
  · rw [renderPreview_preview]
    cases env.setItemThrows <;> rfl
  · rw [renderPreview_preview]
    have e : s₂.storedReport = s.storedReport := b6.trans (v7.trans c7)
    cases env.setItemThrows
    · rfl
    · exact e
  · rw [renderPreview_preview, renderPreview_preview]
    rfl

/-! ## The claims -/

/-- C1: `validateRequired` returns true iff the date value is non-empty, the time value
is non-empty, and the title and the description are non-empty after trimming; and each of
the four fields, on its own, has `aria-invalid` "true" and a non-empty error text exactly
when its own check fails, and `aria-invalid` "false" and an empty text when it passes. -/
theorem validateRequired_spec (s : State) :
    ((validateRequired s).1 = true ↔
      s.dateValue ≠ "" ∧ s.timeValue ≠ "" ∧ jsTrim s.titleValue ≠ "" ∧
        jsTrim s.descValue ≠ "") ∧
    (((validateRequired s).2.dateErr.ariaInvalid = "true" ∧
        (validateRequired s).2.dateErr.text ≠ "") ↔ s.dateValue = "") ∧
    (((validateRequired s).2.timeErr.ariaInvalid = "true" ∧
        (validateRequired s).2.timeErr.text ≠ "") ↔ s.timeValue = "") ∧
    (((validateRequired s).2.titleErr.ariaInvalid = "true" ∧
        (validateRequired s).2.titleErr.text ≠ "") ↔ jsTrim s.titleValue = "") ∧
    (((validateRequired s).2.descErr.ariaInvalid = "true" ∧
        (validateRequired s).2.descErr.text ≠ "") ↔ jsTrim s.descValue = "") ∧
    (s.dateValue ≠ "" → (validateRequired s).2.dateErr = ⟨"false", ""⟩) ∧
    (s.timeValue ≠ "" → (validateRequired s).2.timeErr = ⟨"false", ""⟩) ∧
    (jsTrim s.titleValue ≠ "" → (validateRequired s).2.titleErr = ⟨"false", ""⟩) ∧
    (jsTrim s.descValue ≠ "" → (validateRequired s).2.descErr = ⟨"false", ""⟩) := by
  by_cases h1 : s.dateValue = "" <;> by_cases h2 : s.timeValue = "" <;>
    by_cases h3 : jsTrim s.titleValue = "" <;> by_cases h4 : jsTrim s.descValue = "" <;>
    simp [validateRequired, setError, truthy, h1, h2, h3, h4]

/-- C2: when `validateRequired` fails on the form, the submit handler leaves `lastReport`,
the stored "lastBugReport" entry and the preview as they were, and the status message is
"Please fix the highlighted fields.". -/
theorem submit_invalid (sci : ℚ → String) (env : SubmitEnv) (s : State)
    (h : (validateRequired s).1 = false) :
    (submit sci env s).lastReport = s.lastReport ∧
    (submit sci env s).storedReport = s.storedReport ∧
    (submit sci env s).preview = s.preview ∧
    (submit sci env s).statusMsg = "Please fix the highlighted fields." := by
  have hc := validateRequired_clearErrors s
  rw [h] at hc
  obtain ⟨_, _, _, _, _, v1, v2, v3⟩ := validateRequired_values (clearErrors s)
  obtain ⟨_, _, _, _, _, c1, c2, c3⟩ := clearErrors_values s
  obtain ⟨r1, r2, r3, r4, _, _⟩ :=
    showResults_fields "Please fix the highlighted fields." (validateRequired (clearErrors s)).2
  rw [submit_of_invalid sci env s hc]
  simp only [r1, r2, r3, r4, v1, v2, v3, c1, c2, c3]
  exact ⟨trivial, trivial, trivial, by decide⟩

/-- Witness of `submit_invalid` on the blank page. -/
theorem submit_invalid_witness :
    (validateRequired State.blank).1 = false ∧
    (submit (fun _ => "") ⟨"2024-05-01T10:00:00.000Z", none, false⟩ State.blank).statusMsg =
      "Please fix the highlighted fields." :=
  ⟨by decide, (submit_invalid _ _ _ (by decide)).2.2.2⟩

/-- C3: after a valid submit whose storage write succeeds, `lastReport` is the report
built from the form (date, time, trimmed title, trimmed description, the clock's
`createdAt`, and the four screenshot properties exactly when a file was selected and
read), the stored entry is its `JSON.stringify` text, `JSON.parse` gives the report's
properties back from that text, and `loadFromLocalStorage` returns a non-null object
with exactly the properties and values of the report. -/
theorem submit_persistence_roundtrip (sci : ℚ → String) (env : SubmitEnv) (s : State)
    (hv : (validateRequired s).1 = true) (hw : env.setItemThrows = false) :
    (submit sci env s).lastReport = some (buildReport env s).1 ∧
    (submit sci env s).storedReport =
      some (jsonStringify (.object (buildReport env s).1.toObject)) ∧
    jsonParse (jsonStringify (.object (buildReport env s).1.toObject)) =
      some (.object (buildReport env s).1.toObject) ∧
    loadFromLocalStorage (submit sci env s) = some (buildReport env s).1.toObject ∧
    ((s.shotFile = none ∨ env.readResult = none) →
      (buildReport env s).1 =
        ⟨s.dateValue, s.timeValue, jsTrim s.titleValue, jsTrim s.descValue, env.now,
          none, none, none, none⟩) ∧
    (∀ file dataUrl, s.shotFile = some file → env.readResult = some dataUrl →
      (buildReport env s).1 =
        ⟨s.dateValue, s.timeValue, jsTrim s.titleValue, jsTrim s.descValue, env.now,
          some file.name, some file.type, some file.size, some dataUrl⟩) := by
  obtain ⟨hl, hs, _⟩ := submit_valid_fields sci env s hv
  rw [hw] at hs
  simp only [Bool.false_eq_true, if_false] at hs
  refine ⟨hl, hs, jsonParse_jsonStringify _, loadFromLocalStorage_of_stored _ _ hs, ?_, ?_⟩
  · intro h
    rcases buildReport_cases env s with ⟨_, e⟩ | ⟨_, _, _, e⟩ | ⟨file, u, hf, hr, _⟩
    · exact e
    · exact e
    · rcases h with h | h
      · rw [hf] at h
        cases h
      · rw [hr] at h
        cases h
  · intro file u hf hr
    rcases buildReport_cases env s with ⟨h, _⟩ | ⟨_, _, h, _⟩ | ⟨file', u', hf', hr', e⟩
    · rw [hf] at h
      cases h
    · rw [hr] at h
      cases h
    · rw [hf] at hf'
      rw [hr] at hr'
      cases hf'
      cases hr'
      exact e

/-- Witness of `submit_persistence_roundtrip`: the filled page, the file read, the write
succeeding. -/
theorem submit_persistence_roundtrip_witness :
    (validateRequired State.filled).1 = true ∧
    loadFromLocalStorage
      (submit (fun _ => "")
        ⟨"2024-05-01T08:30:00.000Z", some "data:image/png;base64,iVBORw0KGgo=", false⟩
        State.filled) =
      some
        (buildReport
          ⟨"2024-05-01T08:30:00.000Z", some "data:image/png;base64,iVBORw0KGgo=", false⟩
          State.filled).1.toObject :=
  ⟨by decide,
    (submit_persistence_roundtrip (fun _ => "")
      ⟨"2024-05-01T08:30:00.000Z", some "data:image/png;base64,iVBORw0KGgo=", false⟩
      State.filled (by decide) rfl).2.2.2.1⟩

/-- C4: `reportToMarkdown` is the twelve lines "## Bug Report", "", "**Date:** <date>",
"**Time:** <time>", "**Created At:** <createdAt>", "", "### Title", <title>, "",
"### Description", <description>, "" joined by a line feed, followed by the screenshot
line exactly when `screenshotName` is a non-empty string; so the result is the same for
any other `screenshotType`, `screenshotSize` and `screenshotDataUrl`. -/
theorem reportToMarkdown_spec (r : Report) :
    ((∃ n, r.screenshotName = some n ∧ n ≠ "") →
      reportToMarkdown r =
        join "\n" ["## Bug Report", "", "**Date:** " ++ r.date, "**Time:** " ++ r.time,
          "**Created At:** " ++ r.createdAt, "", "### Title", r.title, "",
          "### Description", r.description, "",
          "_Screenshot included in report.json as Data URL (base64)._"]) ∧
    (¬ (∃ n, r.screenshotName = some n ∧ n ≠ "") →
      reportToMarkdown r =
        join "\n" ["## Bug Report", "", "**Date:** " ++ r.date, "**Time:** " ++ r.time,
          "**Created At:** " ++ r.createdAt, "", "### Title", r.title, "",
          "### Description", r.description, ""]) ∧
    (∀ (t : Option String) (z : Option ℕ) (u : Option String),
      reportToMarkdown
        { r with screenshotType := t, screenshotSize := z, screenshotDataUrl := u } =
      reportToMarkdown r) := by
  refine ⟨?_, ?_, fun _ _ _ => rfl⟩
  · rintro ⟨n, hn, hne⟩
    simp [reportToMarkdown, truthyProp, truthy, hn, hne]
  · intro h
    cases hn : r.screenshotName with
    | none => simp [reportToMarkdown, truthyProp, hn]
    | some n =>
      have : n = "" := by
        by_contra hne
        exact h ⟨n, hn, hne⟩
      simp [reportToMarkdown, truthyProp, truthy, hn, this]

/-- C5: for a non-negative integer byte count `b` the loop of `bytesToHuman` leaves the
unit index `i` and the value `b / 1024^i`; the unit is B iff `b < 1024`, KB iff
`1024 ≤ b < 1024^2`, MB iff `1024^2 ≤ b < 1024^3`, GB iff `b ≥ 1024^3`; for KB and MB the
scaled value lies in `[1, 1024)`; the string returned is that value through
`String(Math.round(_))` for B (which prints `b` itself) and through `toFixed(1)`
otherwise (below the `10^21` printing threshold: the digits of the integer part, a
point and one digit), a space and the unit; a non-finite input gives the empty string. -/
theorem bytesToHuman_unit_and_value (sci : ℚ → String) (b : ℕ) :
    (∃ i : ℕ, scaleLoop (b : ℚ) 0 = ((b : ℚ) / 1024 ^ i, i) ∧
      (units.getD i "undefined" = "B" ↔ b < 1024) ∧
      (units.getD i "undefined" = "KB" ↔ 1024 ≤ b ∧ b < 1024 ^ 2) ∧
      (units.getD i "undefined" = "MB" ↔ 1024 ^ 2 ≤ b ∧ b < 1024 ^ 3) ∧
      (units.getD i "undefined" = "GB" ↔ 1024 ^ 3 ≤ b) ∧
      (units.getD i "undefined" = "KB" ∨ units.getD i "undefined" = "MB" →
        1 ≤ (b : ℚ) / 1024 ^ i ∧ (b : ℚ) / 1024 ^ i < 1024) ∧
      bytesToHuman sci (.number b) =
        (if i = 0 then integerToString sci (mathRound ((b : ℚ) / 1024 ^ i))
          else toFixed1 sci ((b : ℚ) / 1024 ^ i)) ++ " " ++ units.getD i "undefined" ∧
      (i = 0 → bytesToHuman sci (.number b) = String.mk (decimal b) ++ " B") ∧
      (i ≠ 0 → (b : ℚ) / 1024 ^ i < 10 ^ 21 →
        bytesToHuman sci (.number b) =
          String.mk (decimal (toFixedInt ((b : ℚ) / 1024 ^ i) / 10)) ++ "." ++
            String.mk [digitChar (toFixedInt ((b : ℚ) / 1024 ^ i) % 10)] ++ " " ++
            units.getD i "undefined")) ∧
    bytesToHuman sci .nan = "" ∧ bytesToHuman sci .posInf = "" ∧
    bytesToHuman sci .negInf = "" ∧ bytesToHuman sci .undefined = "" := by
  refine ⟨?_, rfl, rfl, rfl, rfl⟩
  obtain ⟨i, hs, hB, hK, hM, hG, hr, hstr, h0⟩ := bytesToHuman_index sci b
  refine ⟨i, hs, hB, hK, hM, hG, hr, hstr, h0, ?_⟩
  intro hi hx
  rw [hstr, if_neg hi, toFixed1_small sci _ (by positivity) hx, fixedString_eq]

/-- C6: on a valid form with a selected file whose read fails, the submit handler builds
the report with the properties date, time, trimmed title, trimmed description and
createdAt and no screenshot property; that report becomes `lastReport`, it is handed to
`saveToLocalStorage` (so it is the stored entry unless the write throws, which leaves
the entry as it was), the preview shows it with Screenshot "None", the status is
"Report generated ✅" and both buttons are enabled. -/
theorem submit_unreadable_screenshot (sci : ℚ → String) (env : SubmitEnv) (s : State)
    (file : File) (hv : (validateRequired s).1 = true) (hf : s.shotFile = some file)
    (hr : env.readResult = none) :
    (submit sci env s).lastReport =
      some ⟨s.dateValue, s.timeValue, jsTrim s.titleValue, jsTrim s.descValue, env.now,
        none, none, none, none⟩ ∧
    Report.toObject ⟨s.dateValue, s.timeValue, jsTrim s.titleValue, jsTrim s.descValue,
        env.now, none, none, none, none⟩ =
      [("date", .str s.dateValue), ("time", .str s.timeValue),
        ("title", .str (jsTrim s.titleValue)), ("description", .str (jsTrim s.descValue)),
        ("createdAt", .str env.now)] ∧
    (submit sci env s).storedReport =
      (saveToLocalStorage env.setItemThrows
        ⟨s.dateValue, s.timeValue, jsTrim s.titleValue, jsTrim s.descValue, env.now,
          none, none, none, none⟩ s).storedReport ∧
    (env.setItemThrows = false →
      (submit sci env s).storedReport =
        some (jsonStringify (.object
          [("date", .str s.dateValue), ("time", .str s.timeValue),
            ("title", .str (jsTrim s.titleValue)),
            ("description", .str (jsTrim s.descValue)), ("createdAt", .str env.now)]))) ∧
    (submit sci env s).preview =
      [ ⟨"kv", ⟨"kv__k", "Created At"⟩, ⟨"kv__v", env.now⟩⟩,
        ⟨"kv", ⟨"kv__k", "Date"⟩, ⟨"kv__v", s.dateValue⟩⟩,
        ⟨"kv", ⟨"kv__k", "Time"⟩, ⟨"kv__v", s.timeValue⟩⟩,
        ⟨"kv kv--full", ⟨"kv__k", "Title"⟩, ⟨"kv__v", jsTrim s.titleValue⟩⟩,
        ⟨"kv kv--full", ⟨"kv__k", "Description"⟩, ⟨"kv__v", jsTrim s.descValue⟩⟩,
        ⟨"kv kv--full", ⟨"kv__k", "Screenshot"⟩, ⟨"kv__v", "None"⟩⟩ ] ∧
    (submit sci env s).statusMsg = "Report generated ✅" ∧
    (submit sci env s).downloadDisabled = false ∧
    (submit sci env s).copyDisabled = false := by
  obtain ⟨hl, hs, hp, hm, hd, hc⟩ := submit_valid_fields sci env s hv
  rw [buildReport_unreadable env s file hf hr] at hl hs hp
  refine ⟨hl, rfl, ?_, ?_, ?_, hm, hd, hc⟩
  · rw [hs]
    cases env.setItemThrows <;> rfl
  · intro hw
    rw [hs, hw]
    rfl
  · rw [hp, renderPreview_preview]
    rfl

/-- Witness of `submit_unreadable_screenshot`: the filled page, the file read failing. -/
theorem submit_unreadable_screenshot_witness :
    (validateRequired State.filled).1 = true ∧
    State.filled.shotFile = some ⟨"shot.png", "image/png", 2048⟩ ∧
    (submit (fun _ => "") ⟨"2024-05-01T08:30:00.000Z", none, false⟩
      State.filled).statusMsg = "Report generated ✅" :=
  ⟨by decide, rfl,
    (submit_unreadable_screenshot (fun _ => "") ⟨"2024-05-01T08:30:00.000Z", none, false⟩
      State.filled ⟨"shot.png", "image/png", 2048⟩ (by decide) rfl rfl).2.2.2.2.2.1⟩

/-- C7: `renderPreview` replaces the children of the preview by six cards, in the order
Created At, Date, Time, Title, Description, Screenshot, with the report's `createdAt`,
`date`, `time`, `title`, `description` as values and, for the last,
"<screenshotName> (<bytesToHuman(screenshotSize)>)" when `screenshotName` is a non-empty
string and "None" otherwise; the first three cards have class "kv", the last three
"kv kv--full"; rendering the same report twice gives what rendering it once gives. -/
theorem renderPreview_spec (sci : ℚ → String) (r : Report) (s : State) :
    (renderPreview sci r s).preview =
      [ ⟨"kv", ⟨"kv__k", "Created At"⟩, ⟨"kv__v", r.createdAt⟩⟩,
        ⟨"kv", ⟨"kv__k", "Date"⟩, ⟨"kv__v", r.date⟩⟩,
        ⟨"kv", ⟨"kv__k", "Time"⟩, ⟨"kv__v", r.time⟩⟩,
        ⟨"kv kv--full", ⟨"kv__k", "Title"⟩, ⟨"kv__v", r.title⟩⟩,
        ⟨"kv kv--full", ⟨"kv__k", "Description"⟩, ⟨"kv__v", r.description⟩⟩,
        ⟨"kv kv--full", ⟨"kv__k", "Screenshot"⟩, ⟨"kv__v",
          match r.screenshotName with
          | some n =>
            if n ≠ "" then n ++ " (" ++ bytesToHuman sci (sizeValue r.screenshotSize) ++ ")"
            else "None"
          | none => "None"⟩⟩ ] ∧
    renderPreview sci r (renderPreview sci r s) = renderPreview sci r s := by
  constructor
  · rw [renderPreview_preview]
    cases hn : r.screenshotName with
    | none => simp [truthyProp]
    | some n =>
      by_cases hne : n = ""
      · simp [truthyProp, truthy, hne]
      · simp [truthyProp, truthy, hne, propText]
  · rw [renderPreview_preview sci r s, renderPreview_preview]

/-- C8: whatever the `data-theme` attribute is and whether or not `localStorage.setItem`
throws, `getCurrentTheme` returns "light" or "dark" ("dark" unless the attribute is
"light"); a click on the toggle makes it return the opposite, two clicks restore it, and
after a click `aria-pressed` is "true" exactly when the theme is dark. -/
theorem themeToggle_spec (s : State) (throws₁ throws₂ : Bool) :
    (getCurrentTheme s = "light" ∨ getCurrentTheme s = "dark") ∧
    (s.dataTheme ≠ some "light" → getCurrentTheme s = "dark") ∧
    (s.dataTheme = some "light" → getCurrentTheme s = "light") ∧
    (getCurrentTheme s = "dark" → getCurrentTheme (themeToggleClick throws₁ s) = "light") ∧
    (getCurrentTheme s = "light" → getCurrentTheme (themeToggleClick throws₁ s) = "dark") ∧
    getCurrentTheme (themeToggleClick throws₂ (themeToggleClick throws₁ s)) =
      getCurrentTheme s ∧
    ((themeToggleClick throws₁ s).ariaPressed = "true" ↔
      getCurrentTheme (themeToggleClick throws₁ s) = "dark") ∧
    ((themeToggleClick throws₁ s).ariaPressed = "true" ∨
      (themeToggleClick throws₁ s).ariaPressed = "false") := by
  have flipD : ∀ (t : Bool) (u : State), getCurrentTheme u = "dark" →
      getCurrentTheme (themeToggleClick t u) = "light" := fun t u h =>
    (getCurrentTheme_of_attr _).1 (themeToggleClick_of_dark t u h).1
  have flipL : ∀ (t : Bool) (u : State), getCurrentTheme u = "light" →
      getCurrentTheme (themeToggleClick t u) = "dark" := fun t u h =>
    (getCurrentTheme_of_attr _).2 (themeToggleClick_of_light t u h).1
  have hne : ("light" : String) ≠ "dark" := by decide
  rcases getCurrentTheme_cases s with ⟨ha, hl⟩ | ⟨ha, hd⟩
  · have h1 := flipL throws₁ s hl
    have hp := (themeToggleClick_of_light throws₁ s hl).2
    refine ⟨Or.inl hl, fun h => absurd ha h, fun _ => hl, ?_, fun _ => h1, ?_, ?_, Or.inl hp⟩
    · intro h
      rw [hl] at h
      exact absurd h hne
    · rw [flipD throws₂ _ h1, hl]
    · rw [hp, h1]
      exact ⟨fun _ => rfl, fun _ => rfl⟩
  · have h1 := flipD throws₁ s hd
    have hp := (themeToggleClick_of_dark throws₁ s hd).2
    refine ⟨Or.inr hd, fun _ => hd, fun h => absurd h ha, fun _ => h1, ?_, ?_, ?_, Or.inr hp⟩
    · intro h
      rw [hd] at h
      exact absurd h.symm hne
    · rw [flipL throws₂ _ h1, hd]
    · rw [hp, h1]
      constructor <;> intro h <;> exact absurd h (by decide)

/-- C9 fails on the code: with the selected file `notes.txt` of type "text/plain" the
handler clears the file input, the file info and the image preview, but the error text
is empty and `aria-invalid` is "false" when it finishes: `resetScreenshotUI` runs after
`setError` and ends with `setError(shotEl, shotErr, "")`. -/
theorem shotChange_nonImage_error_cleared :
    startsWith "text/plain" "image/" = false ∧
    (shotChange (fun _ => "") none
      { State.blank with shotFile := some ⟨"notes.txt", "text/plain", 12⟩ }).shotErr =
      ⟨"false", ""⟩ ∧
    (shotChange (fun _ => "") none
      { State.blank with shotFile := some ⟨"notes.txt", "text/plain", 12⟩ }).shotErr.text ≠
      "Please select an image file." ∧
    (shotChange (fun _ => "") none
      { State.blank with shotFile := some ⟨"notes.txt", "text/plain", 12⟩ }).shotFile =
      none ∧
    (shotChange (fun _ => "") none
      { State.blank with shotFile := some ⟨"notes.txt", "text/plain", 12⟩ }).fileText =
      "" ∧
    (shotChange (fun _ => "") none
      { State.blank with shotFile := some ⟨"notes.txt", "text/plain", 12⟩ }).shotPreviewSrc =
      none := by
  have e := shotChange_nonImage (fun _ => "") none
    { State.blank with shotFile := some ⟨"notes.txt", "text/plain", 12⟩ }
    ⟨"notes.txt", "text/plain", 12⟩ rfl (by decide)
  rw [e]
  exact ⟨by decide, rfl, by decide, rfl, rfl, rfl⟩

/-- C10, as stated, fails: for the byte count `1024^2 - 1`, which is below `1024^3`, the
scaled value `1023.999...` is rounded by `toFixed(1)` to `1024.0`, so `bytesToHuman`
returns `"1024.0 KB"` and the number printed is not below 1024. -/
theorem printedNumber_not_lt_1024 :
    (1048575 : ℕ) < 1024 ^ 3 ∧
    bytesToHuman (fun _ => "") (.number ((1048575 : ℕ) : ℚ)) = "1024.0 KB" ∧
    ¬ (printedNumber ((1048575 : ℕ) : ℚ) < 1024) := by
  obtain ⟨i, hi, hs, _, _, hp, hstr⟩ :=
    bytesToHuman_scaled (fun _ => "") 1048575 (by norm_num) (by norm_num)
  have hi1 : i = 1 := by
    have h := scaleLoop_natCast 1048575
    rw [if_neg (by norm_num), if_pos (by norm_num)] at h
    rw [h] at hs
    exact (congrArg Prod.snd hs).symm
  subst hi1
  have ht : toFixedInt (((1048575 : ℕ) : ℚ) / 1024 ^ 1) = 10240 := by
    unfold toFixedInt
    have : ⌊((1048575 : ℕ) : ℚ) / 1024 ^ 1 * 10 + 1 / 2⌋ = 10240 := by
      rw [Int.floor_eq_iff]
      norm_num
    rw [this]
    rfl
  refine ⟨by norm_num, ?_, ?_⟩
  · rw [hstr, ht]
    decide
  · rw [hp, ht]
    norm_num

/-- C10, amended: for a non-negative integer byte count `b` below `1024^3` the number
`bytesToHuman` prints in front of the unit is at most 1024; for the unit B it is `b`
itself (below 1024), and for KB and MB it is the `toFixed(1)` rounding of the scaled value
`b / 1024^i`, which is below 1024 exactly when that scaled value is below 1023.95. -/
theorem printedNumber_le_1024 (sci : ℚ → String) (b : ℕ) (h : b < 1024 ^ 3) :
    printedNumber b ≤ 1024 ∧
    (b < 1024 → printedNumber b = b ∧ printedNumber b < 1024 ∧
      bytesToHuman sci (.number b) = String.mk (decimal b) ++ " B") ∧
    (1024 ≤ b → ∃ i : ℕ, (i = 1 ∨ i = 2) ∧ scaleLoop (b : ℚ) 0 = ((b : ℚ) / 1024 ^ i, i) ∧
      printedNumber b = (toFixedInt ((b : ℚ) / 1024 ^ i) : ℚ) / 10 ∧
      bytesToHuman sci (.number b) =
        fixedString (toFixedInt ((b : ℚ) / 1024 ^ i)) ++ " " ++ units.getD i "undefined" ∧
      (printedNumber b < 1024 ↔ (b : ℚ) / 1024 ^ i < 1023.95)) := by
  have small : b < 1024 → printedNumber b = b := by
    intro h0
    have hs : scaleLoop (b : ℚ) 0 = ((b : ℚ), 0) := by rw [scaleLoop_natCast, if_pos h0]
    simp only [printedNumber, hs, if_true, mathRound_natCast]
    norm_cast
  have large : 1024 ≤ b → ∃ i : ℕ, (i = 1 ∨ i = 2) ∧
      scaleLoop (b : ℚ) 0 = ((b : ℚ) / 1024 ^ i, i) ∧
      printedNumber b = (toFixedInt ((b : ℚ) / 1024 ^ i) : ℚ) / 10 ∧
      bytesToHuman sci (.number b) =
        fixedString (toFixedInt ((b : ℚ) / 1024 ^ i)) ++ " " ++ units.getD i "undefined" ∧
      (printedNumber b < 1024 ↔ (b : ℚ) / 1024 ^ i < 1023.95) ∧ printedNumber b ≤ 1024 := by
    intro h0
    obtain ⟨i, hi, hs, l1, l2, hp, hstr⟩ := bytesToHuman_scaled sci b h0 h
    refine ⟨i, hi, hs, hp, hstr, ?_, ?_⟩
    · rw [hp, ← toFixedInt_lt_iff, div_lt_iff₀ (by norm_num)]
      norm_num
    · rw [hp, div_le_iff₀ (by norm_num)]
      have := toFixedInt_le _ l2
      norm_num
      exact_mod_cast this
  refine ⟨?_, fun h0 => ⟨small h0, ?_, bytesToHuman_bytes sci b h0⟩, ?_⟩
  · by_cases h0 : b < 1024
    · rw [small h0]
      exact_mod_cast h0.le
    · obtain ⟨i, _, _, _, _, _, hle⟩ := large (not_lt.mp h0)
      exact hle
  · rw [small h0]
    exact_mod_cast h0
  · intro h0
    obtain ⟨i, hi, hs, hp, hstr, hiff, _⟩ := large h0
    exact ⟨i, hi, hs, hp, hstr, hiff⟩

/-- Witness of `printedNumber_le_1024` at the byte count 2048. -/
theorem printedNumber_le_1024_witness :
    (2048 : ℕ) < 1024 ^ 3 ∧ printedNumber ((2048 : ℕ) : ℚ) ≤ 1024 :=
  ⟨by norm_num, (printedNumber_le_1024 (fun _ => "") 2048 (by norm_num)).1⟩

end BugReport
